import Mathlib

/-!
Verification of the freelist / object-allocator / stack-reference core of
faster-cpython/cpython, shallowly embedded from the C sources:

* `pycore_freelist.h` (`struct _Py_freelist` and `_PyFreeList_Init` /
  `_PyFreeList_Push` / `_PyFreeList_Free` / `_PyFreeList_PopNoStats` /
  `_PyFreeList_Size`),
* `Include/internal/pycore_stackref.h` (`_PyStackRef` in both the
  `Py_GIL_DISABLED` build, modelled in namespace `FT`, and the default
  build with the GIL, modelled in namespace `Gil`),
* `Include/internal/pycore_object_alloc.h` (`_PyObject_NewTstate`,
  `_PyObject_GetAllocationHeap`, `_PyObject_MallocWithType`).

Pointers are modelled as natural numbers with `0` playing the role of
`NULL`; machine memory words holding the intrusive next pointers are a
total function `Nat → Nat`.
-/

set_option autoImplicit false

/-! ## FreeList: `struct _Py_freelist` and its operations -/

/-- State of one `struct _Py_freelist` together with the first machine word
of every block (`mem a` is the word stored at address `a`, used by the
intrusive list as the next pointer; address `0` is `NULL`). -/
structure FLState where
  mem : Nat → Nat
  freelist : Nat
  available : Nat
  capacity : Nat

/-- `_PyFreeList_Init`: `fl->freelist = NULL; fl->capacity = fl->available
= capacity;`.  The memory contents `mem0` are whatever they were before. -/
def _PyFreeList_Init (mem0 : Nat → Nat) (capacity : Nat) : FLState :=
  { mem := mem0, freelist := 0, available := capacity, capacity := capacity }

/-- `_PyFreeList_Push`: when `available != 0`, store the old head into the
first word of `obj`, make `obj` the head, decrement `available` and return
`1`; otherwise return `0` and change nothing. -/
def _PyFreeList_Push (fl : FLState) (obj : Nat) : Nat × FLState :=
  if fl.available ≠ 0 then
    (1, { mem := Function.update fl.mem obj fl.freelist,
          freelist := obj,
          available := fl.available - 1,
          capacity := fl.capacity })
  else
    (0, fl)

/-- `_PyFreeList_Free`: push `obj`; when the push fails call `dofree(obj)`.
The returned boolean records whether the supplied release function
`dofree` was invoked. -/
def _PyFreeList_Free (fl : FLState) (obj : Nat) : FLState × Bool :=
  let r := _PyFreeList_Push fl obj
  if r.1 = 0 then (r.2, true) else (r.2, false)

/-- `_PyFreeList_PopNoStats`: take the head block off the list (following
its stored next pointer) and increment `available`; on an empty list
return `NULL` and change nothing. -/
def _PyFreeList_PopNoStats (fl : FLState) : Nat × FLState :=
  let obj := fl.freelist
  if obj ≠ 0 then
    (obj, { fl with freelist := fl.mem obj, available := fl.available + 1 })
  else
    (obj, fl)

/-- `_PyFreeList_Size`: `fl->capacity - fl->available`. -/
def _PyFreeList_Size (fl : FLState) : Nat :=
  fl.capacity - fl.available

/-- Iterated `_PyFreeList_Push` over a list of blocks; the boolean is
`true` precisely when every individual push reported success. -/
def pushList (fl : FLState) : List Nat → FLState × Bool
  | [] => (fl, true)
  | b :: bs =>
    let r := _PyFreeList_Push fl b
    let rr := pushList r.2 bs
    (rr.1, (r.1 == 1) && rr.2)

/-- Iterated `_PyFreeList_PopNoStats`, collecting the returned pointers. -/
def popN (fl : FLState) : Nat → FLState × List Nat
  | 0 => (fl, [])
  | n + 1 =>
    let r := _PyFreeList_PopNoStats fl
    let rr := popN r.2 n
    (rr.1, r.1 :: rr.2)

/-- `Chain mem p l` says that starting from head pointer `p` and following
the next pointers stored in `mem`, one traverses exactly the blocks `l`
and ends at `NULL`. -/
inductive Chain (mem : Nat → Nat) : Nat → List Nat → Prop where
  | nil : Chain mem 0 []
  | cons (p : Nat) (l : List Nat) (hp : p ≠ 0)
      (h : Chain mem (mem p) l) : Chain mem p (p :: l)

/-- Reachability of a freelist state from `_PyFreeList_Init` under the
caller contract of the C API: a pushed block is a real freed block, i.e.
non-`NULL` and not currently linked in the list (pushing a block that is
already linked is a double free and corrupts the intrusive list).  The
list index records the blocks currently linked, most recent first. -/
inductive Reach (cap : Nat) : FLState → List Nat → Prop where
  | init (mem0 : Nat → Nat) : Reach cap (_PyFreeList_Init mem0 cap) []
  | push (fl : FLState) (l : List Nat) (b : Nat) (h : Reach cap fl l)
      (hb : b ≠ 0) (hbl : b ∉ l) :
      Reach cap (_PyFreeList_Push fl b).2 (if fl.available ≠ 0 then b :: l else l)
  | pop (fl : FLState) (l : List Nat) (h : Reach cap fl l) :
      Reach cap (_PyFreeList_PopNoStats fl).2 l.tail

theorem chain_zero {mem : Nat → Nat} {l : List Nat} (h : Chain mem 0 l) :
    l = [] := by
  cases h with
  | nil => rfl
  | cons p l hp h => exact absurd rfl hp

theorem chain_cons {mem : Nat → Nat} {p : Nat} {l : List Nat}
    (h : Chain mem p l) (hp : p ≠ 0) :
    ∃ l', l = p :: l' ∧ Chain mem (mem p) l' := by
  cases h with
  | nil => exact absurd rfl hp
  | cons p l' hp' h' => exact ⟨l', rfl, h'⟩

theorem chain_update {mem : Nat → Nat} {p : Nat} {l : List Nat}
    (h : Chain mem p l) (a v : Nat) (ha : a ∉ l) :
    Chain (Function.update mem a v) p l := by
  induction h with
  | nil => exact Chain.nil
  | cons p l hp hc ih =>
    have hap : p ≠ a := fun he => ha (he ▸ List.mem_cons_self p l)
    have hmem : Function.update mem a v p = mem p := Function.update_noteq hap v mem
    refine Chain.cons p l hp ?_
    rw [hmem]
    exact ih (fun hm => ha (List.mem_cons_of_mem _ hm))

theorem push_state_pos {fl : FLState} {obj : Nat} (hav : fl.available ≠ 0) :
    (_PyFreeList_Push fl obj).2 =
      { mem := Function.update fl.mem obj fl.freelist, freelist := obj,
        available := fl.available - 1, capacity := fl.capacity } := by
  simp [_PyFreeList_Push, hav]

theorem push_state_zero {fl : FLState} {obj : Nat} (hav : ¬ fl.available ≠ 0) :
    (_PyFreeList_Push fl obj).2 = fl := by
  simp [_PyFreeList_Push, hav]

theorem pop_state_pos {fl : FLState} (hfz : fl.freelist ≠ 0) :
    (_PyFreeList_PopNoStats fl).2 =
      { fl with freelist := fl.mem fl.freelist, available := fl.available + 1 } := by
  simp [_PyFreeList_PopNoStats, hfz]

theorem pop_state_zero {fl : FLState} (hfz : fl.freelist = 0) :
    (_PyFreeList_PopNoStats fl).2 = fl := by
  simp [_PyFreeList_PopNoStats, hfz]

/-- The fundamental invariant of reachable freelist states: the capacity
field is the `Init` capacity, the head pointer chains through exactly the
recorded blocks, the number of linked blocks plus `available` equals the
capacity, and the linked blocks are non-`NULL` and pairwise distinct. -/
theorem reach_inv {cap : Nat} {fl : FLState} {l : List Nat}
    (h : Reach cap fl l) :
    fl.capacity = cap ∧ Chain fl.mem fl.freelist l ∧
      l.length + fl.available = cap ∧ 0 ∉ l ∧ l.Nodup := by
  induction h with
  | init mem0 =>
    exact ⟨rfl, Chain.nil, by simp [_PyFreeList_Init], by simp, by simp⟩
  | push fl l b h hb hbl ih =>
    obtain ⟨hcap, hchain, hlen, hz, hnd⟩ := ih
    by_cases hav : fl.available ≠ 0
    · rw [push_state_pos hav, if_pos hav]
      refine ⟨hcap, ?_, ?_, ?_, ?_⟩
      · refine Chain.cons b l hb ?_
        have hupd : Function.update fl.mem b fl.freelist b = fl.freelist :=
          Function.update_same b fl.freelist fl.mem
        show Chain (Function.update fl.mem b fl.freelist)
          (Function.update fl.mem b fl.freelist b) l
        rw [hupd]
        exact chain_update hchain b fl.freelist hbl
      · simp only [List.length_cons]
        omega
      · simp only [List.mem_cons, not_or]
        exact ⟨fun he => hb he.symm, hz⟩
      · exact List.nodup_cons.mpr ⟨hbl, hnd⟩
    · rw [push_state_zero hav, if_neg hav]
      exact ⟨hcap, hchain, hlen, hz, hnd⟩
  | pop fl l h ih =>
    obtain ⟨hcap, hchain, hlen, hz, hnd⟩ := ih
    by_cases hfz : fl.freelist = 0
    · have hl : l = [] := chain_zero (hfz ▸ hchain)
      subst hl
      rw [pop_state_zero hfz]
      simp only [List.tail_nil]
      exact ⟨hcap, hchain, hlen, hz, hnd⟩
    · obtain ⟨l', hl, hchain'⟩ := chain_cons hchain hfz
      subst hl
      rw [pop_state_pos hfz]
      simp only [List.tail_cons]
      refine ⟨hcap, hchain', ?_, ?_, ?_⟩
      · simp only [List.length_cons] at hlen
        omega
      · exact fun hm => hz (List.mem_cons_of_mem _ hm)
      · exact (List.nodup_cons.mp hnd).2

theorem pushList_spec (bs : List Nat) :
    ∀ (fl : FLState) (l : List Nat), Chain fl.mem fl.freelist l →
      bs.length ≤ fl.available → (∀ b ∈ bs, b ≠ 0) → bs.Nodup →
      (∀ b ∈ bs, b ∉ l) →
      (pushList fl bs).2 = true ∧
        Chain (pushList fl bs).1.mem (pushList fl bs).1.freelist (bs.reverse ++ l) ∧
        (pushList fl bs).1.available + bs.length = fl.available ∧
        (pushList fl bs).1.capacity = fl.capacity := by
  induction bs with
  | nil =>
    intro fl l hchain _ _ _ _
    simpa [pushList] using hchain
  | cons b bs ih =>
    intro fl l hchain hlen hnz hnd hdisj
    have hav : fl.available ≠ 0 := by
      simp only [List.length_cons] at hlen
      omega
    have hb : b ≠ 0 := hnz b (List.mem_cons_self b bs)
    have hbl : b ∉ l := hdisj b (List.mem_cons_self b bs)
    have hres : (_PyFreeList_Push fl b).1 = 1 := by
      simp [_PyFreeList_Push, hav]
    set fl' : FLState :=
      { mem := Function.update fl.mem b fl.freelist, freelist := b,
        available := fl.available - 1, capacity := fl.capacity } with hfl'
    have hstate : (_PyFreeList_Push fl b).2 = fl' := push_state_pos hav
    have hchain' : Chain fl'.mem fl'.freelist (b :: l) := by
      refine Chain.cons b l hb ?_
      show Chain (Function.update fl.mem b fl.freelist)
        (Function.update fl.mem b fl.freelist b) l
      rw [Function.update_same b fl.freelist fl.mem]
      exact chain_update hchain b fl.freelist hbl
    have hnd' : bs.Nodup := (List.nodup_cons.mp hnd).2
    have hbnotbs : b ∉ bs := (List.nodup_cons.mp hnd).1
    have hlen' : bs.length ≤ fl'.available := by
      simp only [List.length_cons] at hlen
      simp only [hfl']
      omega
    have hnz' : ∀ c ∈ bs, c ≠ 0 := fun c hc => hnz c (List.mem_cons_of_mem _ hc)
    have hdisj' : ∀ c ∈ bs, c ∉ b :: l := by
      intro c hc
      simp only [List.mem_cons, not_or]
      exact ⟨fun he => hbnotbs (he ▸ hc), hdisj c (List.mem_cons_of_mem _ hc)⟩
    obtain ⟨hok, hch, hav', hcap'⟩ := ih fl' (b :: l) hchain' hlen' hnz' hnd' hdisj'
    have hunfold : pushList fl (b :: bs) =
        ((pushList (_PyFreeList_Push fl b).2 bs).1,
         ((_PyFreeList_Push fl b).1 == 1) && (pushList (_PyFreeList_Push fl b).2 bs).2) := rfl
    rw [hunfold, hstate, hres]
    refine ⟨by simpa using hok, ?_, ?_, ?_⟩
    · have : bs.reverse ++ (b :: l) = (b :: bs).reverse ++ l := by
        simp
      rw [← this]
      exact hch
    · simp only [List.length_cons, hfl'] at *
      omega
    · simp only [hfl'] at hcap'
      exact hcap'

theorem popN_spec (n : Nat) :
    ∀ (fl : FLState) (l : List Nat), Chain fl.mem fl.freelist l →
      n ≤ l.length →
      (popN fl n).2 = l.take n ∧
        Chain (popN fl n).1.mem (popN fl n).1.freelist (l.drop n) ∧
        (popN fl n).1.available = fl.available + n := by
  induction n with
  | zero =>
    intro fl l hchain _
    simpa [popN] using hchain
  | succ n ih =>
    intro fl l hchain hlen
    have hne : l ≠ [] := by
      intro he
      rw [he] at hlen
      simp at hlen
    have hfz : fl.freelist ≠ 0 := by
      intro he
      exact hne (chain_zero (he ▸ hchain))
    obtain ⟨l', hl, hchain'⟩ := chain_cons hchain hfz
    subst hl
    have hret : (_PyFreeList_PopNoStats fl).1 = fl.freelist := by
      simp [_PyFreeList_PopNoStats, hfz]
    set fl₂ : FLState :=
      { fl with freelist := fl.mem fl.freelist, available := fl.available + 1 } with hfl₂
    have hstate : (_PyFreeList_PopNoStats fl).2 = fl₂ := pop_state_pos hfz
    have hlen' : n ≤ l'.length := by
      simp only [List.length_cons] at hlen
      omega
    obtain ⟨htake, hdrop, hav⟩ := ih fl₂ l' hchain' hlen'
    have hunfold : popN fl (n + 1) =
        ((popN (_PyFreeList_PopNoStats fl).2 n).1,
         (_PyFreeList_PopNoStats fl).1 :: (popN (_PyFreeList_PopNoStats fl).2 n).2) := rfl
    rw [hunfold, hstate, hret]
    refine ⟨?_, ?_, ?_⟩
    · simp only [List.take_succ_cons]
      rw [htake]
    · simpa using hdrop
    · show (popN fl₂ n).1.available = fl.available + (n + 1)
      rw [hav]
      simp only [hfl₂]
      omega

/-! ## Object heap model shared by the `_PyStackRef` operations -/

/-- Heap-side state seen by the stack-reference operations.  `rc` is each
object's reference count, `immortal` models `_Py_IsImmortal`, `deferredRC`
models `_PyObject_HasDeferredRefcount` (GIL-disabled build only), and
`valid` says whether a live object is present at an address.  No object
ever lives at the `NULL` address `0`, which the structure records as an
invariant. -/
structure ObjHeap where
  rc : Nat → Int
  immortal : Nat → Bool
  deferredRC : Nat → Bool
  valid : Nat → Bool
  null_invalid : valid 0 = false

/-- Modelled from the spec: `Py_INCREF` is the object system's reference
count increment primitive (spec section 5); this core only decides whether
to invoke it. -/
def Py_INCREF (h : ObjHeap) (p : Nat) : ObjHeap :=
  { h with rc := Function.update h.rc p (h.rc p + 1) }

/-- Modelled from the spec: `Py_DECREF` (and its `_MORTAL` variants) is
the object system's reference count decrement primitive. -/
def Py_DECREF (h : ObjHeap) (p : Nat) : ObjHeap :=
  { h with rc := Function.update h.rc p (h.rc p - 1) }

/-- `Py_NewRef(obj)`: increment the count and hand back the pointer. -/
def Py_NewRef (h : ObjHeap) (p : Nat) : ObjHeap × Nat :=
  (Py_INCREF h p, p)

/-- Evaluation of the assertion expression `Py_REFCNT(obj) > 0`: reading
the embedded reference count requires a live object at `p`, so the check
also fails when no valid object is there (in C that read is undefined
behavior). -/
def Py_REFCNT_pos (h : ObjHeap) (p : Nat) : Bool :=
  h.valid p && decide (0 < h.rc p)

/-- The `_PyStackRef` union: a single machine word. -/
structure _PyStackRef where
  bits : Nat
deriving DecidableEq

/-! ## `_PyStackRef` operations, `Py_GIL_DISABLED` build (`FT`)

Assertion failures are modelled as `none`. -/

namespace FT

/-- `Py_TAG_DEFERRED` of the GIL-disabled build. -/
def Py_TAG_DEFERRED : Nat := 1

/-- `PyStackRef_NULL = { .bits = Py_TAG_DEFERRED }`. -/
def PyStackRef_NULL : _PyStackRef := ⟨Py_TAG_DEFERRED⟩

/-- `PyStackRef_IsNull`. -/
def PyStackRef_IsNull (r : _PyStackRef) : Prop :=
  r.bits = PyStackRef_NULL.bits

instance (r : _PyStackRef) : Decidable (PyStackRef_IsNull r) := by
  unfold PyStackRef_IsNull
  infer_instance

/-- `PyStackRef_AsPyObjectBorrow`: clear the tag bit (`bits & ~Py_TAG_BITS`;
on naturals, clearing the lowest bit is subtracting `bits % 2`). -/
def PyStackRef_AsPyObjectBorrow (r : _PyStackRef) : Nat :=
  r.bits - r.bits % 2

/-- `PyStackRef_IsDeferred`: the tag bit is set. -/
def PyStackRef_IsDeferred (r : _PyStackRef) : Prop :=
  r.bits % 2 = 1

instance (r : _PyStackRef) : Decidable (PyStackRef_IsDeferred r) := by
  unfold PyStackRef_IsDeferred
  infer_instance

/-- `PyStackRef_AsPyObjectSteal`: asserts the reference is not the null
sentinel; on a deferred reference returns `Py_NewRef` of the borrowed
pointer, otherwise passes the borrowed pointer through unchanged. -/
def PyStackRef_AsPyObjectSteal (h : ObjHeap) (r : _PyStackRef) :
    Option (ObjHeap × Nat) :=
  if PyStackRef_IsNull r then none
  else if PyStackRef_IsDeferred r then
    some (Py_NewRef h (PyStackRef_AsPyObjectBorrow r))
  else
    some (h, PyStackRef_AsPyObjectBorrow r)

/-- `_PyStackRef_FromPyObjectSteal`: asserts `obj != NULL` and that the
incoming pointer does not already carry the tag bit; tags the pointer as
deferred precisely when the object is immortal.  No count is touched. -/
def _PyStackRef_FromPyObjectSteal (h : ObjHeap) (obj : Nat) :
    Option _PyStackRef :=
  if obj = 0 then none
  else if obj % 2 ≠ 0 then none
  else some ⟨obj ||| (if h.immortal obj then Py_TAG_DEFERRED else 0)⟩

/-- `PyStackRef_FromPyObjectNew`: asserts the tag bit is clear and
`obj != NULL`; deferred tag (no new count) when the object is immortal or
has a deferred refcount, otherwise wraps `Py_NewRef(obj)`. -/
def PyStackRef_FromPyObjectNew (h : ObjHeap) (obj : Nat) :
    Option (ObjHeap × _PyStackRef) :=
  if obj % 2 ≠ 0 then none
  else if obj = 0 then none
  else if h.immortal obj || h.deferredRC obj then
    some (h, ⟨obj ||| Py_TAG_DEFERRED⟩)
  else
    some (Py_INCREF h obj, ⟨obj⟩)

/-- `PyStackRef_FromPyObjectImmortal`: asserts the tag bit is clear,
`obj != NULL` and `_Py_IsImmortal(obj)`; tags as deferred. -/
def PyStackRef_FromPyObjectImmortal (h : ObjHeap) (obj : Nat) :
    Option _PyStackRef :=
  if obj % 2 ≠ 0 then none
  else if obj = 0 then none
  else if h.immortal obj then some ⟨obj ||| Py_TAG_DEFERRED⟩
  else none

/-- `PyStackRef_CLOSE`: asserts the reference is not null; decrements the
target's count unless the reference is deferred. -/
def PyStackRef_CLOSE (h : ObjHeap) (r : _PyStackRef) : Option ObjHeap :=
  if PyStackRef_IsNull r then none
  else if PyStackRef_IsDeferred r then some h
  else some (Py_DECREF h (PyStackRef_AsPyObjectBorrow r))

/-- `PyStackRef_DUP`: asserts the reference is not null; a deferred
reference is returned unchanged (asserting the target really is immortal
or deferred-counted), otherwise the target's count is incremented. -/
def PyStackRef_DUP (h : ObjHeap) (r : _PyStackRef) :
    Option (ObjHeap × _PyStackRef) :=
  if PyStackRef_IsNull r then none
  else if PyStackRef_IsDeferred r then
    if h.immortal (PyStackRef_AsPyObjectBorrow r)
        || h.deferredRC (PyStackRef_AsPyObjectBorrow r) then
      some (h, r)
    else none
  else
    some (Py_INCREF h (PyStackRef_AsPyObjectBorrow r), r)

end FT

/-! ## `_PyStackRef` operations, default build with the GIL (`Gil`) -/

namespace Gil

/-- `Py_TAG_REFCNT` of the default build. -/
def Py_TAG_REFCNT : Nat := 1

/-- `PyStackRef_NULL = { .bits = PyStackRef_NULL_BITS }` with
`PyStackRef_NULL_BITS = Py_TAG_REFCNT`. -/
def PyStackRef_NULL : _PyStackRef := ⟨Py_TAG_REFCNT⟩

/-- `PyStackRef_IsNull`. -/
def PyStackRef_IsNull (r : _PyStackRef) : Prop :=
  r.bits = Py_TAG_REFCNT

instance (r : _PyStackRef) : Decidable (PyStackRef_IsNull r) := by
  unfold PyStackRef_IsNull
  infer_instance

/-- `BITS_TO_PTR`: reinterpret the word as a pointer without masking. -/
def BITS_TO_PTR (r : _PyStackRef) : Nat :=
  r.bits

/-- `BITS_TO_PTR_MASKED`: clear the tag bit, then reinterpret. -/
def BITS_TO_PTR_MASKED (r : _PyStackRef) : Nat :=
  r.bits - r.bits % 2

/-- `PyStackRef_HasCount`: the tag bit is set (the target carries an
embedded count, so this stack slot does not own a count unit). -/
def PyStackRef_HasCount (r : _PyStackRef) : Prop :=
  r.bits % 2 = 1

instance (r : _PyStackRef) : Decidable (PyStackRef_HasCount r) := by
  unfold PyStackRef_HasCount
  infer_instance

/-- `PyStackRef_AsPyObjectBorrow`. -/
def PyStackRef_AsPyObjectBorrow (r : _PyStackRef) : Nat :=
  BITS_TO_PTR_MASKED r

/-- `PyStackRef_AsPyObjectSteal`: on a tagged (`HasCount`) reference,
assert `Py_REFCNT(obj) > 0` on the masked pointer and return
`Py_NewRef(obj)`; otherwise pass the word through as the pointer. -/
def PyStackRef_AsPyObjectSteal (h : ObjHeap) (r : _PyStackRef) :
    Option (ObjHeap × Nat) :=
  if PyStackRef_HasCount r then
    if Py_REFCNT_pos h (BITS_TO_PTR_MASKED r) then
      some (Py_NewRef h (BITS_TO_PTR_MASKED r))
    else none
  else
    some (h, BITS_TO_PTR r)

/-- `PyStackRef_FromPyObjectSteal`: asserts only `obj != NULL`; tags the
pointer (`_Py_IsDeferrable`, i.e. `_Py_IsImmortal`) without touching any
count.  There is no tag-bit assertion in this build. -/
def PyStackRef_FromPyObjectSteal (h : ObjHeap) (obj : Nat) :
    Option _PyStackRef :=
  if obj = 0 then none
  else some ⟨obj ||| (if h.immortal obj then Py_TAG_REFCNT else 0)⟩

/-- `_PyStackRef_FromPyObjectNew`: deferrable objects get the tag with no
new count; otherwise asserts `Py_REFCNT(obj) > 0`, increments the count
and stores the untagged pointer.  No tag-bit assertion in this build. -/
def _PyStackRef_FromPyObjectNew (h : ObjHeap) (obj : Nat) :
    Option (ObjHeap × _PyStackRef) :=
  if h.immortal obj then some (h, ⟨obj ||| Py_TAG_REFCNT⟩)
  else if Py_REFCNT_pos h obj then some (Py_INCREF h obj, ⟨obj⟩)
  else none

/-- `_PyStackRef_FromPyObjectWithCount`: asserts `Py_REFCNT(obj) > 0` and
tags the pointer.  No tag-bit assertion in this build. -/
def _PyStackRef_FromPyObjectWithCount (h : ObjHeap) (obj : Nat) :
    Option _PyStackRef :=
  if Py_REFCNT_pos h obj then some ⟨obj ||| Py_TAG_REFCNT⟩ else none

/-- `PyStackRef_DUP`: asserts the reference is not null; when the slot
owns a count unit (`!HasCount`), asserts a positive count and increments
it; otherwise returns the reference unchanged. -/
def PyStackRef_DUP (h : ObjHeap) (r : _PyStackRef) :
    Option (ObjHeap × _PyStackRef) :=
  if PyStackRef_IsNull r then none
  else if PyStackRef_HasCount r then some (h, r)
  else if Py_REFCNT_pos h (BITS_TO_PTR r) then
    some (Py_INCREF h (BITS_TO_PTR r), r)
  else none

/-- `PyStackRef_CLOSE`: asserts the reference is not null; decrements the
target's count when the slot owns a count unit (`!HasCount`). -/
def PyStackRef_CLOSE (h : ObjHeap) (r : _PyStackRef) : Option ObjHeap :=
  if PyStackRef_IsNull r then none
  else if PyStackRef_HasCount r then some h
  else some (Py_DECREF h (BITS_TO_PTR r))

end Gil

/-! ## Object allocator: `pycore_object_alloc.h` -/

/-- The per-thread mimalloc heaps used by the GIL-disabled build
(`_Py_MIMALLOC_HEAP_OBJECT`, `_Py_MIMALLOC_HEAP_GC`,
`_Py_MIMALLOC_HEAP_GC_PRE`). -/
inductive MiHeap where
  | objectHeap
  | gcHeap
  | gcPreHeap
deriving DecidableEq

/-- The two type properties `_PyObject_GetAllocationHeap` looks at:
`_PyType_HasFeature(tp, Py_TPFLAGS_PREHEADER)` and `_PyType_IS_GC(tp)`. -/
structure PyTypeObject where
  preheader : Bool
  is_gc : Bool

/-- Per-thread `struct _mimalloc_thread_state` slice: the currently
selected allocation heap smuggled to `PyObject_Malloc`. -/
structure MimallocThreadState where
  current_object_heap : MiHeap

/-- `_PyObject_GetAllocationHeap`: pre-header types get the GC-pre-header
heap; otherwise GC types get the GC heap; otherwise the object heap. -/
def _PyObject_GetAllocationHeap (tp : PyTypeObject) : MiHeap :=
  if tp.preheader then MiHeap.gcPreHeap
  else if tp.is_gc then MiHeap.gcHeap
  else MiHeap.objectHeap

/-- `_PyObject_MallocWithType` in the GIL-disabled build: record the heap
chosen for `tp` in the thread-local state, call the backing allocator
(`PyObject_Malloc` reads the recorded heap, modelled by passing it to
`mallocFn`), then restore the default object heap.  The result carries the
new thread state, the returned memory and — as an observation — the heap
that was in effect during the backing call. -/
def _PyObject_MallocWithType (mallocFn : MiHeap → Nat)
    (m : MimallocThreadState) (tp : PyTypeObject) :
    MimallocThreadState × Nat × MiHeap :=
  let m1 : MimallocThreadState :=
    { current_object_heap := _PyObject_GetAllocationHeap tp }
  let mem := mallocFn m1.current_object_heap
  let m2 : MimallocThreadState := { current_object_heap := MiHeap.objectHeap }
  (m2, mem, m1.current_object_heap)

/-- Modelled from the spec: the small-object threshold and the size-class
granularity shift are configuration constants of the backing small-object
allocator (`SMALL_REQUEST_THRESHOLD` and `ALIGNMENT_SHIFT`), defined
outside the examined headers; CPython uses 512 and 3. -/
def SMALL_REQUEST_THRESHOLD : Nat := 512

/-- Modelled from the spec: see `SMALL_REQUEST_THRESHOLD`. -/
def ALIGNMENT_SHIFT : Nat := 3

/-- Embedded object metadata written by allocation: the `ob_type` word and
the `ob_refcnt` word of the object living at each address (types are
identified by numbers here). -/
structure ObjMem where
  ob_type : Nat → Nat
  ob_refcnt : Nat → Nat

/-- Thread/interpreter state seen by `_PyObject_NewTstate`: the `by_size`
size-class freelists of `ts->interp->object_state.freelists`, the object
metadata memory, and the backing allocator (`backing size` is the block it
returns for a request of `size` bytes, `none` on exhaustion). -/
structure TState where
  by_size : Nat → FLState
  objmem : ObjMem
  backing : Nat → Option Nat

/-- Result of an allocation request: a new object or an out-of-memory
report (`PyErr_NoMemory` / a NULL return from the fallback). -/
inductive AllocResult where
  | obj (p : Nat)
  | oom
deriving DecidableEq

/-- Modelled from the spec: the backing-allocator fallback taken by
`_PyObject_NewTstate` on a miss (the body of `ts->interp->alloc` is not
among the examined sources; spec section 4.2 item 3 and the function's own
fallback lines describe it: request memory, report out-of-memory on
failure, otherwise initialize the block as a fresh object via
`_PyObject_Init`, i.e. set its type pointer and initial count 1).  The
boolean in the result records that the backing allocator was called. -/
def newTstate_backing (ts : TState) (tp presize sz : Nat) :
    TState × AllocResult × Bool :=
  match ts.backing sz with
  | none => (ts, AllocResult.oom, true)
  | some mem =>
    let op := mem + presize
    ({ ts with objmem := { ob_type := Function.update ts.objmem.ob_type op tp,
                           ob_refcnt := Function.update ts.objmem.ob_refcnt op 1 } },
     AllocResult.obj op, true)

/-- `_PyObject_NewTstate`: add the pre-header size, and for a small
request try the size-class freelist first; on a hit the popped block gets
its reference count set by `_Py_NewReference` inside `_PyFreeList_Pop`
and then `Py_SET_TYPE(op, tp); op->ob_refcnt = 1;` at the object address
`mem + presize`, with no backing-allocator call.  On a miss (empty
freelist or oversized request) fall through to the backing allocator.
The code's unreachable duplicate of the fallback after its own `return`
is not modelled; the debug `assert(size > 0)` is a caller precondition. -/
def _PyObject_NewTstate (ts : TState) (tp presize size : Nat) :
    TState × AllocResult × Bool :=
  let sz := size + presize
  if sz ≤ SMALL_REQUEST_THRESHOLD then
    let size_cls := (sz - 1) >>> ALIGNMENT_SHIFT
    let fl := ts.by_size size_cls
    let r := _PyFreeList_PopNoStats fl
    if r.1 ≠ 0 then
      let op := r.1 + presize
      ({ by_size := Function.update ts.by_size size_cls r.2,
         objmem := { ob_type := Function.update ts.objmem.ob_type op tp,
                     ob_refcnt := Function.update
                       (Function.update ts.objmem.ob_refcnt r.1 1) op 1 },
         backing := ts.backing },
       AllocResult.obj op, false)
    else
      newTstate_backing ts tp presize sz
  else
    newTstate_backing ts tp presize sz

/-! ## Claim theorems: the FreeList -/

/-- C1: in every reachable freelist state, `_PyFreeList_Push` succeeds —
returning 1, linking the block as the new list head (its first word now
holds the old head) and decrementing `available` by one — if and only if
`available > 0`; with `available == 0` it returns 0 and leaves the state
unchanged, and `_PyFreeList_Free` then invokes the supplied release
function on the block instead of retaining it. -/
theorem push_succeeds_iff_available (cap : Nat) (fl : FLState) (l : List Nat)
    (hreach : Reach cap fl l) (b : Nat) :
    ((_PyFreeList_Push fl b).1 = 1 ↔ 0 < fl.available) ∧
    (0 < fl.available →
      (_PyFreeList_Push fl b).2.freelist = b ∧
      (_PyFreeList_Push fl b).2.mem b = fl.freelist ∧
      (_PyFreeList_Push fl b).2.available = fl.available - 1 ∧
      _PyFreeList_Free fl b = ((_PyFreeList_Push fl b).2, false)) ∧
    (fl.available = 0 →
      (_PyFreeList_Push fl b).1 = 0 ∧ (_PyFreeList_Push fl b).2 = fl ∧
      _PyFreeList_Free fl b = (fl, true)) := by
  by_cases hav : fl.available ≠ 0
  · have hres : (_PyFreeList_Push fl b).1 = 1 := by
      simp [_PyFreeList_Push, hav]
    refine ⟨by simp [hres]; omega, ?_, fun h0 => absurd h0 hav⟩
    intro _
    rw [push_state_pos hav]
    refine ⟨rfl, Function.update_same b fl.freelist fl.mem, rfl, ?_⟩
    simp [_PyFreeList_Free, hres, push_state_pos hav]
  · have h0 : fl.available = 0 := by omega
    have hres : (_PyFreeList_Push fl b).1 = 0 := by
      simp [_PyFreeList_Push, hav]
    refine ⟨by simp [hres, h0], fun hpos => absurd h0 (by omega), ?_⟩
    intro _
    exact ⟨hres, push_state_zero hav, by simp [_PyFreeList_Free, hres, push_state_zero hav]⟩

/-- Witness for C1: the reachable states `Init 2` (available positive: the
push succeeds and links block 8) and `Init 0` (available zero: the push
fails and `_PyFreeList_Free` calls the release function). -/
theorem push_succeeds_iff_available_witness :
    ((_PyFreeList_Push (_PyFreeList_Init (fun _ => 0) 2) 8).1 = 1 ∧
     (_PyFreeList_Push (_PyFreeList_Init (fun _ => 0) 2) 8).2.freelist = 8 ∧
     (_PyFreeList_Push (_PyFreeList_Init (fun _ => 0) 2) 8).2.mem 8 = 0 ∧
     (_PyFreeList_Push (_PyFreeList_Init (fun _ => 0) 2) 8).2.available = 1) ∧
    ((_PyFreeList_Push (_PyFreeList_Init (fun _ => 0) 0) 8).1 = 0 ∧
     _PyFreeList_Free (_PyFreeList_Init (fun _ => 0) 0) 8 =
       (_PyFreeList_Init (fun _ => 0) 0, true)) := by
  have h2 := push_succeeds_iff_available 2 _ [] (Reach.init (fun _ => 0)) 8
  have h0 := push_succeeds_iff_available 0 _ [] (Reach.init (fun _ => 0)) 8
  obtain ⟨hf, hm, ha, -⟩ := h2.2.1 (by decide)
  refine ⟨⟨h2.1.mpr (by decide), hf, hm, ha⟩, ?_⟩
  obtain ⟨hr, -, hfree⟩ := h0.2.2 (by decide)
  exact ⟨hr, hfree⟩

/-- C2: across any sequence of `Push`/`Pop` operations after
`Init(capacity)` (under the freed-block caller contract recorded in
`Reach`), the `available` counter stays within `[0, capacity]`: it is a
natural number, the guarded decrement never wraps below zero, and it never
exceeds `capacity`. -/
theorem available_within_capacity (cap : Nat) (fl : FLState) (l : List Nat)
    (h : Reach cap fl l) : fl.available ≤ fl.capacity := by
  obtain ⟨hcap, -, hlen, -, -⟩ := reach_inv h
  omega

/-- Witness for C2: the state reached by `Init 2` followed by a push. -/
theorem available_within_capacity_witness :
    (_PyFreeList_Push (_PyFreeList_Init (fun _ => 0) 2) 8).2.available ≤
      (_PyFreeList_Push (_PyFreeList_Init (fun _ => 0) 2) 8).2.capacity :=
  available_within_capacity 2 _ _
    (Reach.push _ [] 8 (Reach.init (fun _ => 0)) (by decide) (by simp))

/-- C8: the freelist recycles in LIFO order.  After any successful push of
a block `b`, the next pop returns `b`; and a run of successful pushes of
fresh distinct blocks followed by as many pops yields exactly the pushed
blocks in reverse push order. -/
theorem freelist_lifo :
    (∀ (fl : FLState) (b : Nat), b ≠ 0 → (_PyFreeList_Push fl b).1 = 1 →
      (_PyFreeList_PopNoStats (_PyFreeList_Push fl b).2).1 = b) ∧
    (∀ (fl : FLState) (l bs : List Nat), Chain fl.mem fl.freelist l →
      bs.length ≤ fl.available → (∀ b ∈ bs, b ≠ 0) → bs.Nodup →
      (∀ b ∈ bs, b ∉ l) →
      (pushList fl bs).2 = true ∧
      (popN (pushList fl bs).1 bs.length).2 = bs.reverse) := by
  constructor
  · intro fl b hb hsucc
    have hav : fl.available ≠ 0 := by
      intro h0
      rw [_PyFreeList_Push, if_neg (by omega)] at hsucc
      simp at hsucc
    rw [push_state_pos hav]
    simp [_PyFreeList_PopNoStats, hb]
  · intro fl l bs hchain hlen hnz hnd hdisj
    obtain ⟨hok, hch, -, -⟩ := pushList_spec bs fl l hchain hlen hnz hnd hdisj
    refine ⟨hok, ?_⟩
    have hlen' : bs.length ≤ (bs.reverse ++ l).length := by
      simp
    obtain ⟨htake, -, -⟩ := popN_spec bs.length (pushList fl bs).1 _ hch hlen'
    rw [htake]
    rw [show bs.length = bs.reverse.length from (List.length_reverse bs).symm]
    exact List.take_left bs.reverse l

/-- Witness for C8: pushing 8 then popping returns 8; pushing 8 and 16
into `Init 4` and popping twice yields `[16, 8]`. -/
theorem freelist_lifo_witness :
    (_PyFreeList_PopNoStats
      (_PyFreeList_Push (_PyFreeList_Init (fun _ => 0) 4) 8).2).1 = 8 ∧
    (pushList (_PyFreeList_Init (fun _ => 0) 4) [8, 16]).2 = true ∧
    (popN (pushList (_PyFreeList_Init (fun _ => 0) 4) [8, 16]).1 2).2 = [16, 8] := by
  have h1 := freelist_lifo.1 (_PyFreeList_Init (fun _ => 0) 4) 8 (by decide) (by decide)
  have h2 := freelist_lifo.2 (_PyFreeList_Init (fun _ => 0) 4) [] [8, 16]
    Chain.nil (by decide) (by decide) (by decide) (by decide)
  exact ⟨h1, h2.1, h2.2⟩

/-- C9 counterexample: immediately after `Init(1)` the list holds no
blocks, yet `available` is `1`, not `0` — `available` does not count the
recyclable blocks held in the list. -/
theorem available_not_block_count :
    Reach 1 (_PyFreeList_Init (fun _ => 0) 1) [] ∧
    (_PyFreeList_Init (fun _ => 0) 1).available ≠ ([] : List Nat).length :=
  ⟨Reach.init (fun _ => 0), by decide⟩

/-- C9 (amended): in every reachable freelist state, `available` is the
number of remaining free slots, i.e. `capacity` minus the number of blocks
held in the list: immediately after `Init` it equals `capacity`, a
successful `Push` decreases it by one, and a successful `Pop` increases it
by one. -/
theorem available_counts_free_slots :
    (∀ (mem0 : Nat → Nat) (cap : Nat),
      (_PyFreeList_Init mem0 cap).available = cap) ∧
    (∀ (fl : FLState) (b : Nat), (_PyFreeList_Push fl b).1 = 1 →
      (_PyFreeList_Push fl b).2.available + 1 = fl.available) ∧
    (∀ fl : FLState, (_PyFreeList_PopNoStats fl).1 ≠ 0 →
      (_PyFreeList_PopNoStats fl).2.available = fl.available + 1) ∧
    (∀ (cap : Nat) (fl : FLState) (l : List Nat), Reach cap fl l →
      fl.available + l.length = fl.capacity) := by
  refine ⟨fun _ _ => rfl, ?_, ?_, ?_⟩
  · intro fl b hsucc
    have hav : fl.available ≠ 0 := by
      intro h0
      rw [_PyFreeList_Push, if_neg (by omega)] at hsucc
      simp at hsucc
    rw [push_state_pos hav]
    show fl.available - 1 + 1 = fl.available
    omega
  · intro fl hret
    have hfz : fl.freelist ≠ 0 := by
      intro h0
      rw [_PyFreeList_PopNoStats] at hret
      simp [h0] at hret
    rw [pop_state_pos hfz]
  · intro cap fl l h
    obtain ⟨hcap, -, hlen, -, -⟩ := reach_inv h
    omega

/-- Witness for C9 (amended): `Init 2`, then a successful push of block 8
(available drops from 2 to 1), then a successful pop (back to 2). -/
theorem available_counts_free_slots_witness :
    (_PyFreeList_Init (fun _ => 0) 2).available = 2 ∧
    (_PyFreeList_Push (_PyFreeList_Init (fun _ => 0) 2) 8).2.available + 1 =
      (_PyFreeList_Init (fun _ => 0) 2).available ∧
    (_PyFreeList_PopNoStats
      (_PyFreeList_Push (_PyFreeList_Init (fun _ => 0) 2) 8).2).2.available =
      (_PyFreeList_Push (_PyFreeList_Init (fun _ => 0) 2) 8).2.available + 1 ∧
    (_PyFreeList_Init (fun _ => 0) 3).available + ([] : List Nat).length =
      (_PyFreeList_Init (fun _ => 0) 3).capacity := by
  refine ⟨available_counts_free_slots.1 (fun _ => 0) 2, ?_, ?_, ?_⟩
  · exact available_counts_free_slots.2.1 _ 8 (by decide)
  · exact available_counts_free_slots.2.2.1 _ (by decide)
  · exact available_counts_free_slots.2.2.2 3 _ [] (Reach.init (fun _ => 0))

/-- C10: in every reachable freelist state the number of blocks linked in
the intrusive list plus `available` equals `capacity`; equivalently
`_PyFreeList_Size` returns exactly the length of the linked list; and
neither `Push` nor `Pop` ever modifies the `capacity` field. -/
theorem size_counts_linked_blocks :
    (∀ (cap : Nat) (fl : FLState) (l : List Nat), Reach cap fl l →
      l.length + fl.available = fl.capacity ∧ _PyFreeList_Size fl = l.length) ∧
    (∀ (fl : FLState) (b : Nat), (_PyFreeList_Push fl b).2.capacity = fl.capacity) ∧
    (∀ fl : FLState, (_PyFreeList_PopNoStats fl).2.capacity = fl.capacity) := by
  refine ⟨?_, ?_, ?_⟩
  · intro cap fl l h
    obtain ⟨hcap, -, hlen, -, -⟩ := reach_inv h
    refine ⟨by omega, ?_⟩
    rw [_PyFreeList_Size]
    omega
  · intro fl b
    by_cases hav : fl.available ≠ 0
    · rw [push_state_pos hav]
    · rw [push_state_zero hav]
  · intro fl
    by_cases hfz : fl.freelist = 0
    · rw [pop_state_zero hfz]
    · rw [pop_state_pos hfz]

/-- Witness for C10: the state reached from `Init 2` by pushing block 8
has one linked block, `available = 1` and `Size = 1`. -/
theorem size_counts_linked_blocks_witness :
    ((8 :: []) : List Nat).length +
      (_PyFreeList_Push (_PyFreeList_Init (fun _ => 0) 2) 8).2.available =
      (_PyFreeList_Push (_PyFreeList_Init (fun _ => 0) 2) 8).2.capacity ∧
    _PyFreeList_Size (_PyFreeList_Push (_PyFreeList_Init (fun _ => 0) 2) 8).2 =
      ((8 :: []) : List Nat).length := by
  have hreach : Reach 2 (_PyFreeList_Push (_PyFreeList_Init (fun _ => 0) 2) 8).2
      (if (_PyFreeList_Init (fun _ => 0) 2).available ≠ 0 then 8 :: [] else []) :=
    Reach.push _ [] 8 (Reach.init (fun _ => 0)) (by decide) (by simp)
  have h := size_counts_linked_blocks.1 2 _ _ hreach
  simpa using h

/-! ## Claim theorems: `_PyStackRef` -/

theorem decref_incref_rc (h : ObjHeap) (p : Nat) :
    (Py_DECREF (Py_INCREF h p) p).rc = h.rc := by
  funext q
  by_cases hq : q = p
  · subst hq
    simp [Py_DECREF, Py_INCREF]
  · simp [Py_DECREF, Py_INCREF, Function.update_noteq hq]

/-- Concrete object heap for the closed-form instances: an ordinary live
object at address 2 (count 3) and an immortal object at address 4. -/
def H0 : ObjHeap where
  rc := fun p => if p = 2 then 3 else if p = 4 then 7 else 0
  immortal := fun p => p == 4
  deferredRC := fun _ => false
  valid := fun p => p == 2 || p == 4
  null_invalid := rfl

/-- Concrete object heap with a live mortal object at the odd (tagged-
looking) address 3 and an immortal object at the odd address 7. -/
def H1 : ObjHeap where
  rc := fun p => if p = 3 then 5 else 0
  immortal := fun p => p == 7
  deferredRC := fun _ => false
  valid := fun p => p == 3 || p == 7
  null_invalid := rfl

/-- C3: in both builds, `DUP` followed by `CLOSE` of the duplicated
reference leaves every object's externally observable reference count
unchanged, whether the reference is deferred/uncounted (tag bit set) or
conventionally owned; the hypotheses are the operations' own debug
assertions (non-null, and in the GIL-disabled build that a deferred
target really is immortal or deferred-counted, in the default build that
an owned target has a positive count). -/
theorem dup_close_roundtrip :
    (∀ (h : ObjHeap) (r : _PyStackRef), ¬ FT.PyStackRef_IsNull r →
      (FT.PyStackRef_IsDeferred r →
        (h.immortal (FT.PyStackRef_AsPyObjectBorrow r)
          || h.deferredRC (FT.PyStackRef_AsPyObjectBorrow r)) = true) →
      ∃ h1 r1 h2, FT.PyStackRef_DUP h r = some (h1, r1) ∧
        FT.PyStackRef_CLOSE h1 r1 = some h2 ∧ h2.rc = h.rc) ∧
    (∀ (h : ObjHeap) (r : _PyStackRef), ¬ Gil.PyStackRef_IsNull r →
      (¬ Gil.PyStackRef_HasCount r →
        Py_REFCNT_pos h (Gil.BITS_TO_PTR r) = true) →
      ∃ h1 r1 h2, Gil.PyStackRef_DUP h r = some (h1, r1) ∧
        Gil.PyStackRef_CLOSE h1 r1 = some h2 ∧ h2.rc = h.rc) := by
  constructor
  · intro h r hnn hdef
    by_cases hd : FT.PyStackRef_IsDeferred r
    · refine ⟨h, r, h, ?_, ?_, rfl⟩
      · simp [FT.PyStackRef_DUP, hnn, hd, hdef hd]
      · simp [FT.PyStackRef_CLOSE, hnn, hd]
    · refine ⟨Py_INCREF h (FT.PyStackRef_AsPyObjectBorrow r), r,
        Py_DECREF (Py_INCREF h (FT.PyStackRef_AsPyObjectBorrow r))
          (FT.PyStackRef_AsPyObjectBorrow r), ?_, ?_, ?_⟩
      · simp [FT.PyStackRef_DUP, hnn, hd]
      · simp [FT.PyStackRef_CLOSE, hnn, hd]
      · exact decref_incref_rc h (FT.PyStackRef_AsPyObjectBorrow r)
  · intro h r hnn hcnt
    by_cases hc : Gil.PyStackRef_HasCount r
    · refine ⟨h, r, h, ?_, ?_, rfl⟩
      · simp [Gil.PyStackRef_DUP, hnn, hc]
      · simp [Gil.PyStackRef_CLOSE, hnn, hc]
    · refine ⟨Py_INCREF h (Gil.BITS_TO_PTR r), r,
        Py_DECREF (Py_INCREF h (Gil.BITS_TO_PTR r)) (Gil.BITS_TO_PTR r),
        ?_, ?_, ?_⟩
      · simp [Gil.PyStackRef_DUP, hnn, hc, hcnt hc]
      · simp [Gil.PyStackRef_CLOSE, hnn, hc]
      · exact decref_incref_rc h (Gil.BITS_TO_PTR r)

/-- Witness for C3: both builds, at the owned reference to object 2 of
`H0` (word 2, tag bit clear) and at the deferred reference to the
immortal object 4 (word 5, tag bit set). -/
theorem dup_close_roundtrip_witness :
    (∃ h1 r1 h2, FT.PyStackRef_DUP H0 ⟨2⟩ = some (h1, r1) ∧
      FT.PyStackRef_CLOSE h1 r1 = some h2 ∧ h2.rc = H0.rc) ∧
    (∃ h1 r1 h2, FT.PyStackRef_DUP H0 ⟨5⟩ = some (h1, r1) ∧
      FT.PyStackRef_CLOSE h1 r1 = some h2 ∧ h2.rc = H0.rc) ∧
    (∃ h1 r1 h2, Gil.PyStackRef_DUP H0 ⟨2⟩ = some (h1, r1) ∧
      Gil.PyStackRef_CLOSE h1 r1 = some h2 ∧ h2.rc = H0.rc) ∧
    (∃ h1 r1 h2, Gil.PyStackRef_DUP H0 ⟨5⟩ = some (h1, r1) ∧
      Gil.PyStackRef_CLOSE h1 r1 = some h2 ∧ h2.rc = H0.rc) :=
  ⟨dup_close_roundtrip.1 H0 ⟨2⟩ (by decide) (by decide),
   dup_close_roundtrip.1 H0 ⟨5⟩ (by decide) (by decide),
   dup_close_roundtrip.2 H0 ⟨2⟩ (by decide) (by decide),
   dup_close_roundtrip.2 H0 ⟨5⟩ (by decide) (by decide)⟩

/-- C4: in both builds `AsPyObjectSteal` returns the untagged underlying
pointer, incrementing the target's count exactly when the reference is
deferred/uncounted (tag bit set) and passing ownership through unchanged
otherwise; and on the null sentinel it fails an assertion (explicitly in
the GIL-disabled build; in the default build the `Py_REFCNT(obj) > 0`
assertion reads through the null pointer, where no valid object lives). -/
theorem steal_semantics :
    (∀ (h : ObjHeap) (r : _PyStackRef), ¬ FT.PyStackRef_IsNull r →
      ∃ h' p, FT.PyStackRef_AsPyObjectSteal h r = some (h', p) ∧
        p = FT.PyStackRef_AsPyObjectBorrow r ∧
        h'.rc p = h.rc p + (if FT.PyStackRef_IsDeferred r then 1 else 0) ∧
        (∀ q, q ≠ p → h'.rc q = h.rc q)) ∧
    (∀ h : ObjHeap, FT.PyStackRef_AsPyObjectSteal h FT.PyStackRef_NULL = none) ∧
    (∀ (h : ObjHeap) (r : _PyStackRef), ¬ Gil.PyStackRef_IsNull r →
      (Gil.PyStackRef_HasCount r →
        Py_REFCNT_pos h (Gil.BITS_TO_PTR_MASKED r) = true) →
      ∃ h' p, Gil.PyStackRef_AsPyObjectSteal h r = some (h', p) ∧
        p = Gil.BITS_TO_PTR_MASKED r ∧
        h'.rc p = h.rc p + (if Gil.PyStackRef_HasCount r then 1 else 0) ∧
        (∀ q, q ≠ p → h'.rc q = h.rc q)) ∧
    (∀ h : ObjHeap, Gil.PyStackRef_AsPyObjectSteal h Gil.PyStackRef_NULL = none) := by
  refine ⟨?_, ?_, ?_, ?_⟩
  · intro h r hnn
    by_cases hd : FT.PyStackRef_IsDeferred r
    · refine ⟨Py_INCREF h (FT.PyStackRef_AsPyObjectBorrow r),
        FT.PyStackRef_AsPyObjectBorrow r, ?_, rfl, ?_, ?_⟩
      · simp [FT.PyStackRef_AsPyObjectSteal, hnn, hd, Py_NewRef]
      · simp [Py_INCREF, hd]
      · intro q hq
        simp [Py_INCREF, Function.update_noteq hq]
    · refine ⟨h, FT.PyStackRef_AsPyObjectBorrow r, ?_, rfl, ?_, fun q _ => rfl⟩
      · simp [FT.PyStackRef_AsPyObjectSteal, hnn, hd]
      · simp [hd]
  · intro h
    simp [FT.PyStackRef_AsPyObjectSteal, FT.PyStackRef_IsNull]
  · intro h r hnn hcnt
    by_cases hc : Gil.PyStackRef_HasCount r
    · refine ⟨Py_INCREF h (Gil.BITS_TO_PTR_MASKED r),
        Gil.BITS_TO_PTR_MASKED r, ?_, rfl, ?_, ?_⟩
      · simp [Gil.PyStackRef_AsPyObjectSteal, hc, hcnt hc, Py_NewRef]
      · simp [Py_INCREF, hc]
      · intro q hq
        simp [Py_INCREF, Function.update_noteq hq]
    · have hmask : Gil.BITS_TO_PTR_MASKED r = Gil.BITS_TO_PTR r := by
        have : r.bits % 2 = 0 := by
          rw [Gil.PyStackRef_HasCount] at hc
          omega
        rw [Gil.BITS_TO_PTR_MASKED, Gil.BITS_TO_PTR, this]
        omega
      refine ⟨h, Gil.BITS_TO_PTR_MASKED r, ?_, rfl, ?_, fun q _ => rfl⟩
      · rw [hmask]
        simp [Gil.PyStackRef_AsPyObjectSteal, hc]
      · simp [hc]
  · intro h
    have hnc : Gil.PyStackRef_HasCount Gil.PyStackRef_NULL := by decide
    have hmask : Gil.BITS_TO_PTR_MASKED Gil.PyStackRef_NULL = 0 := by decide
    simp [Gil.PyStackRef_AsPyObjectSteal, hnc, hmask, Py_REFCNT_pos, h.null_invalid]

/-- Witness for C4: both builds at the owned reference to object 2 and at
the deferred reference to the immortal object 4 of `H0`. -/
theorem steal_semantics_witness :
    (∃ h' p, FT.PyStackRef_AsPyObjectSteal H0 ⟨2⟩ = some (h', p) ∧
      p = FT.PyStackRef_AsPyObjectBorrow ⟨2⟩ ∧
      h'.rc p = H0.rc p + (if FT.PyStackRef_IsDeferred ⟨2⟩ then 1 else 0) ∧
      (∀ q, q ≠ p → h'.rc q = H0.rc q)) ∧
    (∃ h' p, FT.PyStackRef_AsPyObjectSteal H0 ⟨5⟩ = some (h', p) ∧
      p = FT.PyStackRef_AsPyObjectBorrow ⟨5⟩ ∧
      h'.rc p = H0.rc p + (if FT.PyStackRef_IsDeferred ⟨5⟩ then 1 else 0) ∧
      (∀ q, q ≠ p → h'.rc q = H0.rc q)) ∧
    (∃ h' p, Gil.PyStackRef_AsPyObjectSteal H0 ⟨5⟩ = some (h', p) ∧
      p = Gil.BITS_TO_PTR_MASKED ⟨5⟩ ∧
      h'.rc p = H0.rc p + (if Gil.PyStackRef_HasCount ⟨5⟩ then 1 else 0) ∧
      (∀ q, q ≠ p → h'.rc q = H0.rc q)) ∧
    FT.PyStackRef_AsPyObjectSteal H0 FT.PyStackRef_NULL = none ∧
    Gil.PyStackRef_AsPyObjectSteal H0 Gil.PyStackRef_NULL = none :=
  ⟨steal_semantics.1 H0 ⟨2⟩ (by decide),
   steal_semantics.1 H0 ⟨5⟩ (by decide),
   steal_semantics.2.2.1 H0 ⟨5⟩ (by decide) (by decide),
   steal_semantics.2.1 H0,
   steal_semantics.2.2.2 H0⟩

/-- C7 counterexample: in the default build, `PyStackRef_FromPyObjectSteal`
applied (over heap `H1`) to pointer 3, whose tag bit is set, does not fail
any assertion — it returns a reference — and neither do
`_PyStackRef_FromPyObjectNew` and `_PyStackRef_FromPyObjectWithCount`;
so the tag-bit check is not present in both build disciplines. -/
theorem default_ctor_accepts_tagged :
    (3 : Nat) % 2 = 1 ∧
    Gil.PyStackRef_FromPyObjectSteal H1 3 = some ⟨3⟩ ∧
    (Gil._PyStackRef_FromPyObjectNew H1 3).isSome = true ∧
    (Gil._PyStackRef_FromPyObjectWithCount H1 3).isSome = true := by
  refine ⟨by decide, ?_, ?_, ?_⟩ <;> decide

/-- C7 (amended): only the GIL-disabled build's constructors assert that
the incoming pointer does not already carry the tag bit (all three fail on
a tagged pointer); the default build's constructors perform no tag-bit
check and accept a tagged pointer whenever their remaining assertions
(non-null for `FromPyObjectSteal`; deferrable or positive count for
`FromPyObjectNew`; positive count for `FromPyObjectWithCount`) pass. -/
theorem ctor_tagbit_assertion_ft_only :
    (∀ (h : ObjHeap) (obj : Nat), obj % 2 = 1 →
      FT._PyStackRef_FromPyObjectSteal h obj = none ∧
      FT.PyStackRef_FromPyObjectNew h obj = none ∧
      FT.PyStackRef_FromPyObjectImmortal h obj = none) ∧
    (∀ (h : ObjHeap) (obj : Nat), obj ≠ 0 →
      (Gil.PyStackRef_FromPyObjectSteal h obj).isSome = true) ∧
    (∀ (h : ObjHeap) (obj : Nat),
      h.immortal obj = true ∨ Py_REFCNT_pos h obj = true →
      (Gil._PyStackRef_FromPyObjectNew h obj).isSome = true) ∧
    (∀ (h : ObjHeap) (obj : Nat), Py_REFCNT_pos h obj = true →
      (Gil._PyStackRef_FromPyObjectWithCount h obj).isSome = true) := by
  refine ⟨?_, ?_, ?_, ?_⟩
  · intro h obj hodd
    have h2 : obj % 2 ≠ 0 := by omega
    have h0 : obj ≠ 0 := by omega
    refine ⟨?_, ?_, ?_⟩
    · simp [FT._PyStackRef_FromPyObjectSteal, h0, h2]
    · simp [FT.PyStackRef_FromPyObjectNew, h2]
    · simp [FT.PyStackRef_FromPyObjectImmortal, h2]
  · intro h obj h0
    simp [Gil.PyStackRef_FromPyObjectSteal, h0]
  · intro h obj hd
    rcases hd with hi | hp
    · simp [Gil._PyStackRef_FromPyObjectNew, hi]
    · by_cases hi : h.immortal obj
      · simp [Gil._PyStackRef_FromPyObjectNew, hi]
      · simp [Gil._PyStackRef_FromPyObjectNew, hi, hp]
  · intro h obj hp
    simp [Gil._PyStackRef_FromPyObjectWithCount, hp]

/-- Witness for C7 (amended): over `H1`, the tagged pointer 3 is rejected
by all three GIL-disabled constructors and accepted by all three default
build constructors. -/
theorem ctor_tagbit_assertion_ft_only_witness :
    (FT._PyStackRef_FromPyObjectSteal H1 3 = none ∧
     FT.PyStackRef_FromPyObjectNew H1 3 = none ∧
     FT.PyStackRef_FromPyObjectImmortal H1 3 = none) ∧
    (Gil.PyStackRef_FromPyObjectSteal H1 3).isSome = true ∧
    (Gil._PyStackRef_FromPyObjectNew H1 3).isSome = true ∧
    (Gil._PyStackRef_FromPyObjectWithCount H1 3).isSome = true :=
  ⟨ctor_tagbit_assertion_ft_only.1 H1 3 (by decide),
   ctor_tagbit_assertion_ft_only.2.1 H1 3 (by decide),
   ctor_tagbit_assertion_ft_only.2.2.1 H1 3 (Or.inr (by decide)),
   ctor_tagbit_assertion_ft_only.2.2.2 H1 3 (by decide)⟩

/-! ## Claim theorems: the object allocator -/

theorem popNoStats_ret (fl : FLState) : (_PyFreeList_PopNoStats fl).1 = fl.freelist := by
  by_cases h : fl.freelist = 0
  · simp [_PyFreeList_PopNoStats, h]
  · simp [_PyFreeList_PopNoStats, h]

/-- C5: for a request whose total size (object size plus pre-header) is
within the small-object threshold and whose size-class freelist is
non-empty, `_PyObject_NewTstate` pops the recycled block, sets the
object's type pointer and an initial reference count of 1 in it and
returns it without calling the backing allocator; on a miss (oversized
request or empty freelist) it falls through to the backing allocator, and
a backing-allocator failure is reported as out-of-memory. -/
theorem newTstate_small_hit_miss (ts : TState) (tp presize size : Nat) :
    (size + presize ≤ SMALL_REQUEST_THRESHOLD →
      (ts.by_size ((size + presize - 1) >>> ALIGNMENT_SHIFT)).freelist ≠ 0 →
      (_PyObject_NewTstate ts tp presize size).2.1 =
        AllocResult.obj
          ((ts.by_size ((size + presize - 1) >>> ALIGNMENT_SHIFT)).freelist + presize) ∧
      (_PyObject_NewTstate ts tp presize size).2.2 = false ∧
      (_PyObject_NewTstate ts tp presize size).1.objmem.ob_type
        ((ts.by_size ((size + presize - 1) >>> ALIGNMENT_SHIFT)).freelist + presize) = tp ∧
      (_PyObject_NewTstate ts tp presize size).1.objmem.ob_refcnt
        ((ts.by_size ((size + presize - 1) >>> ALIGNMENT_SHIFT)).freelist + presize) = 1) ∧
    (size + presize ≤ SMALL_REQUEST_THRESHOLD →
      (ts.by_size ((size + presize - 1) >>> ALIGNMENT_SHIFT)).freelist = 0 →
      (_PyObject_NewTstate ts tp presize size).2.2 = true ∧
      (ts.backing (size + presize) = none →
        (_PyObject_NewTstate ts tp presize size).2.1 = AllocResult.oom)) ∧
    (SMALL_REQUEST_THRESHOLD < size + presize →
      (_PyObject_NewTstate ts tp presize size).2.2 = true ∧
      (ts.backing (size + presize) = none →
        (_PyObject_NewTstate ts tp presize size).2.1 = AllocResult.oom) ∧
      (∀ m, ts.backing (size + presize) = some m →
        (_PyObject_NewTstate ts tp presize size).2.1 = AllocResult.obj (m + presize) ∧
        (_PyObject_NewTstate ts tp presize size).1.objmem.ob_type (m + presize) = tp ∧
        (_PyObject_NewTstate ts tp presize size).1.objmem.ob_refcnt (m + presize) = 1)) := by
  have hret := popNoStats_ret (ts.by_size ((size + presize - 1) >>> ALIGNMENT_SHIFT))
  refine ⟨?_, ?_, ?_⟩
  · intro hsz hfl
    refine ⟨?_, ?_, ?_, ?_⟩ <;> simp [_PyObject_NewTstate, hsz, hret, hfl]
  · intro hsz hfl
    constructor
    · cases hb : ts.backing (size + presize) with
      | none =>
        simp [_PyObject_NewTstate, hsz, hret, hfl, newTstate_backing, hb]
      | some m =>
        simp [_PyObject_NewTstate, hsz, hret, hfl, newTstate_backing, hb]
    · intro hnone
      simp [_PyObject_NewTstate, hsz, hret, hfl, newTstate_backing, hnone]
  · intro hsz
    have hnsz : ¬ (size + presize ≤ SMALL_REQUEST_THRESHOLD) := by omega
    refine ⟨?_, ?_, ?_⟩
    · cases hb : ts.backing (size + presize) with
      | none => simp [_PyObject_NewTstate, hnsz, newTstate_backing, hb]
      | some m => simp [_PyObject_NewTstate, hnsz, newTstate_backing, hb]
    · intro hnone
      simp [_PyObject_NewTstate, hnsz, newTstate_backing, hnone]
    · intro m hm
      refine ⟨?_, ?_, ?_⟩ <;>
        simp [_PyObject_NewTstate, hnsz, newTstate_backing, hm]

/-- Concrete size-class freelist holding one recycled block at address 8. -/
def FL0 : FLState :=
  { mem := fun _ => 0, freelist := 8, available := 1, capacity := 2 }

/-- Concrete thread state for the allocator instances: every size class
holds `FL0`, object memory is zeroed, the backing allocator is exhausted. -/
def TS0 : TState :=
  { by_size := fun _ => FL0,
    objmem := { ob_type := fun _ => 0, ob_refcnt := fun _ => 0 },
    backing := fun _ => none }

/-- Witness for C5: over `TS0`, a small request (16 bytes, no pre-header)
hits the freelist and returns the recycled block 8 initialized for type 7
with count 1 and no backing call, while an oversized request (600 bytes)
reaches the exhausted backing allocator and reports out-of-memory. -/
theorem newTstate_small_hit_miss_witness :
    ((_PyObject_NewTstate TS0 7 0 16).2.1 = AllocResult.obj (FL0.freelist + 0) ∧
     (_PyObject_NewTstate TS0 7 0 16).2.2 = false ∧
     (_PyObject_NewTstate TS0 7 0 16).1.objmem.ob_type (FL0.freelist + 0) = 7 ∧
     (_PyObject_NewTstate TS0 7 0 16).1.objmem.ob_refcnt (FL0.freelist + 0) = 1) ∧
    ((_PyObject_NewTstate TS0 7 0 600).2.2 = true ∧
     (_PyObject_NewTstate TS0 7 0 600).2.1 = AllocResult.oom) := by
  have hhit := (newTstate_small_hit_miss TS0 7 0 16).1 (by decide) (by decide)
  have hmiss := (newTstate_small_hit_miss TS0 7 0 600).2.2 (by decide)
  exact ⟨hhit, hmiss.1, hmiss.2.1 rfl⟩

/-- C6: in the GIL-disabled build, `_PyObject_GetAllocationHeap` selects
the arena purely from the two type properties — pre-header types get the
GC-pre-header heap, otherwise GC types get the GC heap, otherwise the
default object heap — the selected arena is the one in effect for the
backing call, and the thread-local selection is restored to the default
object heap immediately after the call returns, so the whole operation is
independent of the thread state it starts from (a nested allocation is
unaffected by the outer call's choice). -/
theorem malloc_with_type_arena :
    (∀ tp : PyTypeObject, tp.preheader = true →
      _PyObject_GetAllocationHeap tp = MiHeap.gcPreHeap) ∧
    (∀ tp : PyTypeObject, tp.preheader = false → tp.is_gc = true →
      _PyObject_GetAllocationHeap tp = MiHeap.gcHeap) ∧
    (∀ tp : PyTypeObject, tp.preheader = false → tp.is_gc = false →
      _PyObject_GetAllocationHeap tp = MiHeap.objectHeap) ∧
    (∀ (mallocFn : MiHeap → Nat) (m : MimallocThreadState) (tp : PyTypeObject),
      (_PyObject_MallocWithType mallocFn m tp).2.2 =
        _PyObject_GetAllocationHeap tp ∧
      (_PyObject_MallocWithType mallocFn m tp).2.1 =
        mallocFn (_PyObject_GetAllocationHeap tp) ∧
      (_PyObject_MallocWithType mallocFn m tp).1.current_object_heap =
        MiHeap.objectHeap) ∧
    (∀ (mallocFn : MiHeap → Nat) (m m' : MimallocThreadState) (tp : PyTypeObject),
      _PyObject_MallocWithType mallocFn m tp =
        _PyObject_MallocWithType mallocFn m' tp) := by
  refine ⟨?_, ?_, ?_, ?_, ?_⟩
  · intro tp hp
    simp [_PyObject_GetAllocationHeap, hp]
  · intro tp hp hg
    simp [_PyObject_GetAllocationHeap, hp, hg]
  · intro tp hp hg
    simp [_PyObject_GetAllocationHeap, hp, hg]
  · intro mallocFn m tp
    exact ⟨rfl, rfl, rfl⟩
  · intro mallocFn m m' tp
    rfl

/-- Witness for C6: the three kinds of types select the three arenas, and
after a call that used the GC heap the thread-local selection is back on
the default object heap. -/
theorem malloc_with_type_arena_witness :
    _PyObject_GetAllocationHeap ⟨true, false⟩ = MiHeap.gcPreHeap ∧
    _PyObject_GetAllocationHeap ⟨false, true⟩ = MiHeap.gcHeap ∧
    _PyObject_GetAllocationHeap ⟨false, false⟩ = MiHeap.objectHeap ∧
    (_PyObject_MallocWithType (fun _ => 42) ⟨MiHeap.gcHeap⟩
      ⟨false, true⟩).1.current_object_heap = MiHeap.objectHeap ∧
    _PyObject_MallocWithType (fun _ => 42) ⟨MiHeap.gcPreHeap⟩ ⟨false, true⟩ =
      _PyObject_MallocWithType (fun _ => 42) ⟨MiHeap.objectHeap⟩ ⟨false, true⟩ :=
  ⟨malloc_with_type_arena.1 _ rfl,
   malloc_with_type_arena.2.1 _ rfl rfl,
   malloc_with_type_arena.2.2.1 _ rfl rfl,
   (malloc_with_type_arena.2.2.2.1 (fun _ => 42) ⟨MiHeap.gcHeap⟩ ⟨false, true⟩).2.2,
   malloc_with_type_arena.2.2.2.2 (fun _ => 42) ⟨MiHeap.gcPreHeap⟩ ⟨MiHeap.objectHeap⟩
     ⟨false, true⟩⟩
